import Mathlib

/-!
A shallow embedding of the school dropout agent-based simulation
(`school_model.py`, `student_agent.py`) together with proofs about it.

Conventions used throughout:
* Python floats are modelled as exact rationals (`ℚ`).
* Random draws are passed in explicitly as data: the unseeded global numpy
  stream supplies the SES shuffle, the initial performance draws, the
  per-step performance fluctuations and the dropout decisions; the
  model-owned `random.Random(42)` stream supplies the agent activation
  order of `mesa.time.RandomActivation`.
* Python exceptions are modelled with `Except PyErr`.
* `nx.watts_strogatz_graph` (networkx ≥ 2.6) and the parts of `mesa` the
  model uses (`NetworkGrid`, `RandomActivation`, `DataCollector` model
  reporters) are embedded from their library implementations.
-/

set_option maxHeartbeats 1000000

/-- Agent status; the source stores the strings `'Attending'` / `'Dropped Out'`. -/
inductive Status where
  | Attending
  | DroppedOut
  deriving DecidableEq

/-- Socioeconomic tier; the source stores the codes `LOW_SES, MEDIUM_SES, HIGH_SES = 0, 1, 2`. -/
inductive SES where
  | Low
  | Medium
  | High
  deriving DecidableEq

/-- Python exceptions relevant to the model.  `NetworkXError` is raised by
`nx.watts_strogatz_graph`, `IndexError` by the out-of-range list access in
`make_agents`.  `InvalidParameter` is the error kind named by the
documentation; the code never raises it. -/
inductive PyErr where
  | NetworkXError
  | IndexError
  | InvalidParameter
  deriving DecidableEq

/-- `np.clip(x, lo, hi)` = `np.minimum(hi, np.maximum(lo, x))`. -/
def np_clip (x lo hi : ℚ) : ℚ := min hi (max lo x)

/-- `np.random.normal(loc, scale)` decomposed as `loc + scale * z` with `z`
the underlying standard-normal draw. -/
def normal_sample (loc scale z : ℚ) : ℚ := loc + scale * z

/-- An `nx.Graph`: insertion-ordered node keys plus a symmetric adjacency
relation stored as ordered pairs (both orientations), mirroring the
dict-of-dicts representation (which collapses parallel edges). -/
structure NxGraph where
  nodeList : List Nat
  adj : List (Nat × Nat)
  deriving DecidableEq

/-- `nx.Graph()`. -/
def NxGraph.empty : NxGraph := ⟨[], []⟩

/-- Node insertion as performed implicitly by `G.add_edge`. -/
def NxGraph.addNode (G : NxGraph) (u : Nat) : NxGraph :=
  if u ∈ G.nodeList then G else { G with nodeList := G.nodeList ++ [u] }

/-- `G.has_edge(u, v)`. -/
def NxGraph.hasEdge (G : NxGraph) (u v : Nat) : Bool := (u, v) ∈ G.adj

/-- `G.add_edge(u, v)`: inserts both endpoints as nodes, then records the
edge in both orientations (a no-op if already present). -/
def NxGraph.addEdge (G : NxGraph) (u v : Nat) : NxGraph :=
  let G1 := (G.addNode u).addNode v
  if (u, v) ∈ G1.adj then G1
  else { G1 with adj := (u, v) :: (v, u) :: G1.adj }

/-- `G.remove_edge(u, v)` (total here; in the generator the removed edge is
always present, so the error branch of networkx is unreachable). -/
def NxGraph.removeEdge (G : NxGraph) (u v : Nat) : NxGraph :=
  { G with adj := G.adj.filter (fun e => decide (e ≠ (u, v)) && decide (e ≠ (v, u))) }

/-- `G.degree(u)`. -/
def NxGraph.degree (G : NxGraph) (u : Nat) : Nat :=
  (G.adj.filter (fun e => decide (e.1 = u))).length

/-- `G.neighbors(u)`. -/
def NxGraph.neighbors (G : NxGraph) (u : Nat) : List Nat :=
  (G.adj.filter (fun e => decide (e.1 = u))).map (fun e => e.2)

/-- `nx.complete_graph(n)`, returned by `watts_strogatz_graph` when `k = n`. -/
def complete_graph (n : Nat) : NxGraph :=
  { nodeList := List.range n
    adj := (List.range n).flatMap (fun i =>
      ((List.range n).filter (fun j => decide (j ≠ i))).map (fun j => (i, j))) }

/-- The `zip(nodes, targets)` pair list of the ring-lattice pass at offset `j`. -/
def ring_edges (n j : Nat) : List (Nat × Nat) :=
  (List.range n).map (fun i => (i, (i + j) % n))

/-- All `(u, v)` pairs visited by the lattice construction and again by the
rewiring loop: offsets `j = 1 .. k/2`, nodes in label order. -/
def lattice_visits (n k : Nat) : List (Nat × Nat) :=
  (List.range (k / 2)).flatMap (fun j => ring_edges n (j + 1))

/-- `G.add_edges_from`. -/
def add_edge_list (G : NxGraph) (es : List (Nat × Nat)) : NxGraph :=
  es.foldl (fun H e => H.addEdge e.1 e.2) G

/-- The rewiring `while` loop: repeatedly redraw `w` while it is `u` or an
existing neighbor of `u`; break (no rewiring) once `G.degree(u) >= n - 1`.
The candidate list stands for successive `seed.choice(nodes)` draws; an
exhausted list is treated as no rewiring. -/
def pick_rewire_target (G : NxGraph) (n u : Nat) : Nat → List Nat → Option Nat
  | w, rest =>
    if ¬ (w = u ∨ G.hasEdge u w) then some w
    else if n - 1 ≤ G.degree u then none
    else
      match rest with
      | [] => none
      | w2 :: rest2 => pick_rewire_target G n u w2 rest2

/-- One visit of the rewiring loop: with probability `p` (draw `d.1`),
replace edge `(u, v)` by `(u, w)` for an admissible `w`. -/
def rewire_step (n : Nat) (p : ℚ) (G : NxGraph) (uv : Nat × Nat) (d : ℚ × List Nat) : NxGraph :=
  if d.1 < p then
    match d.2 with
    | [] => G
    | w :: ws =>
      match pick_rewire_target G n uv.1 w ws with
      | some w2 => (G.removeEdge uv.1 uv.2).addEdge uv.1 w2
      | none => G
  else G

/-- The full rewiring pass over all lattice visits. -/
def rewire_all (n : Nat) (p : ℚ) (G : NxGraph) (vs : List (Nat × Nat))
    (ds : List (ℚ × List Nat)) : NxGraph :=
  (vs.zip ds).foldl (fun H vd => rewire_step n p H vd.1 vd.2) G

/-- `nx.watts_strogatz_graph(n, k, p)` (networkx ≥ 2.6): raises
`NetworkXError` when `k > n`, returns the complete graph when `k = n`, and
otherwise builds the ring lattice and rewires each lattice edge with
probability `p`.  There is no parity check on `k`. -/
def watts_strogatz_graph (n k : Nat) (p : ℚ) (ds : List (ℚ × List Nat)) :
    Except PyErr NxGraph :=
  if n < k then .error .NetworkXError
  else if k = n then .ok (complete_graph n)
  else .ok (rewire_all n p (add_edge_list NxGraph.empty (lattice_visits n k))
    (lattice_visits n k) ds)

/-- `StudentAgent.__init__` state: id, grid position, performance, tier, status. -/
structure StudentAgent where
  unique_id : Nat
  pos : Nat
  performance : ℚ
  ses : SES
  status : Status
  deriving DecidableEq

/-- One row of the DataCollector's model reporters. -/
structure MetricsRow where
  total_dropout_rate : ℚ
  low_ses_dropout_rate : ℚ
  medium_ses_dropout_rate : ℚ
  high_ses_dropout_rate : ℚ
  financial_aid_policy : Bool
  peer_influence_weight : ℚ
  deriving DecidableEq

/-- `SchoolModel` state: parameters, the graph, the scheduler's agent list
(in creation order) and the collected model rows. -/
structure SchoolModel where
  running : Bool
  n_agents : Nat
  steps : Nat
  base_dropout_rate : ℚ
  peer_influence_weight : ℚ
  performance_volatility : ℚ
  financial_aid_policy : Bool
  G : NxGraph
  agents : List StudentAgent
  records : List MetricsRow
  deriving DecidableEq

def PERFORMANCE_THRESHOLD : ℚ := 60

def INITIAL_PERFORMANCE_MEAN : ℚ := 75

def INITIAL_PERFORMANCE_STD : ℚ := 10

def FINANCIAL_AID_EFFECTIVENESS : ℚ := 2 / 5

/-- The grid's per-node `"agent"` attribute list: agents placed on `node`. -/
def grid_agents_at (agents : List StudentAgent) (node : Nat) : List StudentAgent :=
  agents.filter (fun b => decide (b.pos = node))

/-- `NetworkGrid.get_neighbors(pos, include_center=False)`: all agents on
nodes adjacent to `pos`. -/
def grid_get_neighbors (G : NxGraph) (agents : List StudentAgent) (pos : Nat) :
    List StudentAgent :=
  (G.neighbors pos).flatMap (fun nid => grid_agents_at agents nid)

/-- The status read through `G.nodes[node_id]["agent"]` (first element of
the node's agent list, as the source does with `container[0]`). -/
def node_attr_status (agents : List StudentAgent) (nid : Nat) : Option Status :=
  (grid_agents_at agents nid).head?.map (fun b => b.status)

/-- Steps 2 of `StudentAgent.step`: zero with no neighbors, otherwise the
dropped-out count (looked up through the node attribute keyed by each
neighbor's `unique_id`) divided by the neighbor count. -/
def StudentAgent.peer_influence_score (m : SchoolModel) (a : StudentAgent) : ℚ :=
  let neighbor_nodes := (grid_get_neighbors m.G m.agents a.pos).map (fun b => b.unique_id)
  if neighbor_nodes = [] then 0
  else
    let dropped_out_count := neighbor_nodes.countP
      (fun nid => decide (node_attr_status m.agents nid = some Status.DroppedOut))
    (dropped_out_count : ℚ) / (neighbor_nodes.length : ℚ)

/-- `performance_risk = max(0, PERFORMANCE_THRESHOLD - performance) / PERFORMANCE_THRESHOLD`. -/
def performance_risk (perf : ℚ) : ℚ :=
  max 0 (PERFORMANCE_THRESHOLD - perf) / PERFORMANCE_THRESHOLD

/-- Step 3 of `StudentAgent.step`: the combined dropout probability, with
`perf` the post-fluctuation performance. -/
def StudentAgent.p_drop (m : SchoolModel) (a : StudentAgent) (perf : ℚ) : ℚ :=
  m.base_dropout_rate + performance_risk perf * (1 - m.peer_influence_weight)
    + StudentAgent.peer_influence_score m a * m.peer_influence_weight

/-- Step 4 of `StudentAgent.step`: the financial-aid intervention. -/
def financial_aid_adjust (policy : Bool) (s : SES) (p : ℚ) : ℚ :=
  if policy = true ∧ s = SES.Low then p * (1 - FINANCIAL_AID_EFFECTIVENESS) else p

/-- `StudentAgent.step`: no-op when dropped out; otherwise fluctuate and
clamp performance, compute the dropout probability, and drop out when the
uniform draw `u` is below it.  `z` is the standard-normal fluctuation draw. -/
def StudentAgent.step (m : SchoolModel) (a : StudentAgent) (z u : ℚ) : StudentAgent :=
  if a.status = Status.DroppedOut then a
  else
    let fluctuation := normal_sample 0 m.performance_volatility z
    let performance2 := np_clip (a.performance + fluctuation) 0 100
    let pd := financial_aid_adjust m.financial_aid_policy a.ses
      (StudentAgent.p_drop m a performance2)
    { a with
      performance := performance2
      status := if u < pd then Status.DroppedOut else a.status }

/-- `SchoolModel.get_dropout_rate` (divides by `n_agents`; the Python code
would raise on `n_agents = 0`, which never occurs in use). -/
def SchoolModel.get_dropout_rate (m : SchoolModel) : ℚ :=
  let dropout_count := m.agents.countP (fun a => decide (a.status = Status.DroppedOut))
  ((dropout_count : ℚ) / (m.n_agents : ℚ)) * 100

/-- `SchoolModel.get_dropout_by_ses`: `0` for an empty tier. -/
def SchoolModel.get_dropout_by_ses (m : SchoolModel) (ses_level : SES) : ℚ :=
  let ses_agents := m.agents.filter (fun a => decide (a.ses = ses_level))
  if ses_agents = [] then 0
  else
    let dropout_count := ses_agents.countP (fun a => decide (a.status = Status.DroppedOut))
    ((dropout_count : ℚ) / (ses_agents.length : ℚ)) * 100

/-- One `DataCollector.collect` row of the model reporters. -/
def SchoolModel.collectRow (m : SchoolModel) : MetricsRow :=
  { total_dropout_rate := m.get_dropout_rate
    low_ses_dropout_rate := m.get_dropout_by_ses SES.Low
    medium_ses_dropout_rate := m.get_dropout_by_ses SES.Medium
    high_ses_dropout_rate := m.get_dropout_by_ses SES.High
    financial_aid_policy := m.financial_aid_policy
    peer_influence_weight := m.peer_influence_weight }

/-- The precomputed tier list of `make_agents`: `int(N*0.4)` Low,
`int(N*0.4)` Medium, `int(N*0.2)` High.  On the realizable range the float
truncations equal `⌊2N/5⌋` and `⌊N/5⌋`. -/
def ses_distribution (N : Nat) : List SES :=
  List.replicate (2 * N / 5) SES.Low ++ List.replicate (2 * N / 5) SES.Medium
    ++ List.replicate (N / 5) SES.High

/-- `np.clip(np.random.normal(75, 10), 50, 95)` with `z` the standard-normal draw. -/
def initial_performance (z : ℚ) : ℚ :=
  np_clip (normal_sample INITIAL_PERFORMANCE_MEAN INITIAL_PERFORMANCE_STD z) 50 95

/-- The `for i, node in enumerate(self.G.nodes())` loop of `make_agents`:
agent `i` is placed on the `i`-th node and takes `ses_distribution[i]`,
raising `IndexError` when the tier list is too short. -/
def build_agents (dist : List SES) (zs : Nat → ℚ) :
    List Nat → Nat → Except PyErr (List StudentAgent)
  | [], _ => .ok []
  | node :: rest, i =>
    match dist[i]? with
    | none => .error .IndexError
    | some s => do
      let tail ← build_agents dist zs rest (i + 1)
      .ok ({ unique_id := i, pos := node, performance := initial_performance (zs i),
             ses := s, status := Status.Attending } :: tail)

/-- The constructor parameters of `SchoolModel.__init__`. -/
structure Params where
  N : Nat
  k_degree : Nat
  rewiring_prob : ℚ
  base_dropout_rate : ℚ
  peer_influence_weight : ℚ
  performance_volatility : ℚ
  financial_aid_policy : Bool

/-- The draws consumed during construction: the `np.random.shuffle` of the
tier list, the per-agent initial performance draws, and the rewiring draws
of the graph generator. -/
structure ConstructRand where
  shuffle_ses : List SES → List SES
  init_draws : Nat → ℚ
  ws_draws : List (ℚ × List Nat)

/-- The draws consumed by one `SchoolModel.step`: the activation order
produced by the seeded `random.Random(42)` stream, and the per-agent
fluctuation and dropout draws of the global numpy stream (indexed here by
agent id). -/
structure StepRand where
  order : List Nat
  fluct_draws : Nat → ℚ
  drop_draws : Nat → ℚ

/-- `SchoolModel.__init__`: build the graph, then `make_agents` (shuffle the
tier list, create and place the agents), then the data collector. -/
def SchoolModel.construct (p : Params) (rho : ConstructRand) : Except PyErr SchoolModel := do
  let G ← watts_strogatz_graph p.N p.k_degree p.rewiring_prob rho.ws_draws
  let dist := rho.shuffle_ses (ses_distribution p.N)
  let agents ← build_agents dist rho.init_draws G.nodeList 0
  .ok { running := true
        n_agents := p.N
        steps := 0
        base_dropout_rate := p.base_dropout_rate
        peer_influence_weight := p.peer_influence_weight
        performance_volatility := p.performance_volatility
        financial_aid_policy := p.financial_aid_policy
        G := G
        agents := agents
        records := [] }

/-- Stepping the (unique) agent with id `i`, in place, reading the current
model state (later agents in the same pass see this update). -/
def SchoolModel.stepAgentAt (m : SchoolModel) (i : Nat) (z u : ℚ) : SchoolModel :=
  let agents2 := m.agents.map (fun a => if a.unique_id = i then StudentAgent.step m a z u else a)
  { m with agents := agents2 }

/-- `RandomActivation.step()`: each agent's `step` exactly once, in the
shuffled order, sequentially. -/
def SchoolModel.agentPass (m : SchoolModel) (sr : StepRand) : SchoolModel :=
  sr.order.foldl (fun mm i => mm.stepAgentAt i (sr.fluct_draws i) (sr.drop_draws i)) m

/-- `SchoolModel.step`: increment the counter, collect, then advance agents. -/
def SchoolModel.step (m : SchoolModel) (sr : StepRand) : SchoolModel :=
  let m1 := { m with steps := m.steps + 1 }
  let m2 := { m1 with records := m1.records ++ [m1.collectRow] }
  m2.agentPass sr

/-- A run: the external caller's loop of `step()` calls. -/
def SchoolModel.run (m : SchoolModel) : List StepRand → SchoolModel
  | [] => m
  | sr :: rest => (m.step sr).run rest

instance {ε α : Type} [DecidableEq ε] [DecidableEq α] : DecidableEq (Except ε α) := fun x y =>
  match x, y with
  | .ok a, .ok b => if h : a = b then isTrue (by rw [h]) else isFalse (by simp [h])
  | .error a, .error b => if h : a = b then isTrue (by rw [h]) else isFalse (by simp [h])
  | .ok _, .error _ => isFalse (by simp)
  | .error _, .ok _ => isFalse (by simp)

/-! ### Basic preservation lemmas -/

lemma foldl_preserves {α β : Type} {P : β → Prop} {f : β → α → β}
    (h : ∀ b a, P b → P (f b a)) : ∀ (l : List α) (b : β), P b → P (l.foldl f b) := by
  intro l
  induction l with
  | nil => intro b hb; exact hb
  | cons x xs ih => intro b hb; exact ih (f b x) (h b x hb)

lemma StudentAgent.step_dropped (m : SchoolModel) (a : StudentAgent) (z u : ℚ)
    (h : a.status = Status.DroppedOut) : StudentAgent.step m a z u = a := by
  simp [StudentAgent.step, h]

lemma SchoolModel.stepAgentAt_agents (m : SchoolModel) (i : Nat) (z u : ℚ) (j : Nat) :
    (m.stepAgentAt i z u).agents[j]? =
      (m.agents[j]?).map (fun a => if a.unique_id = i then StudentAgent.step m a z u else a) := by
  simp [SchoolModel.stepAgentAt]

lemma SchoolModel.stepAgentAt_steps (m : SchoolModel) (i : Nat) (z u : ℚ) :
    (m.stepAgentAt i z u).steps = m.steps := rfl

lemma SchoolModel.stepAgentAt_records (m : SchoolModel) (i : Nat) (z u : ℚ) :
    (m.stepAgentAt i z u).records = m.records := rfl

lemma SchoolModel.stepAgentAt_G (m : SchoolModel) (i : Nat) (z u : ℚ) :
    (m.stepAgentAt i z u).G = m.G := rfl

lemma SchoolModel.agentPass_steps (m : SchoolModel) (sr : StepRand) :
    (m.agentPass sr).steps = m.steps := by
  have := foldl_preserves (P := fun mm : SchoolModel => mm.steps = m.steps)
    (f := fun mm i => mm.stepAgentAt i (sr.fluct_draws i) (sr.drop_draws i))
    (by intro b a hb; simpa [SchoolModel.stepAgentAt_steps] using hb) sr.order m rfl
  exact this

lemma SchoolModel.agentPass_records (m : SchoolModel) (sr : StepRand) :
    (m.agentPass sr).records = m.records := by
  have := foldl_preserves (P := fun mm : SchoolModel => mm.records = m.records)
    (f := fun mm i => mm.stepAgentAt i (sr.fluct_draws i) (sr.drop_draws i))
    (by intro b a hb; simpa [SchoolModel.stepAgentAt_records] using hb) sr.order m rfl
  exact this

lemma SchoolModel.agentPass_G (m : SchoolModel) (sr : StepRand) :
    (m.agentPass sr).G = m.G := by
  have := foldl_preserves (P := fun mm : SchoolModel => mm.G = m.G)
    (f := fun mm i => mm.stepAgentAt i (sr.fluct_draws i) (sr.drop_draws i))
    (by intro b a hb; simpa [SchoolModel.stepAgentAt_G] using hb) sr.order m rfl
  exact this

lemma SchoolModel.step_steps (m : SchoolModel) (sr : StepRand) :
    (m.step sr).steps = m.steps + 1 := by
  simp [SchoolModel.step, SchoolModel.agentPass_steps]

lemma SchoolModel.step_G (m : SchoolModel) (sr : StepRand) :
    (m.step sr).G = m.G := by
  simp [SchoolModel.step, SchoolModel.agentPass_G]

lemma SchoolModel.run_G (m : SchoolModel) (srs : List StepRand) :
    (m.run srs).G = m.G := by
  induction srs generalizing m with
  | nil => rfl
  | cons sr rest ih => simpa [SchoolModel.run, SchoolModel.step_G] using ih (m.step sr)

/-! ### Concrete demonstration instances used by the witnesses -/

/-- The all-empty fallback model (never used on the happy path). -/
def emptyModel : SchoolModel :=
  { running := true, n_agents := 0, steps := 0, base_dropout_rate := 0,
    peer_influence_weight := 0, performance_volatility := 0, financial_aid_policy := false,
    G := NxGraph.empty, agents := [], records := [] }

/-- N = 5 (integer SES split), k = 2, rewiring probability 0,
base dropout rate 1/2, zero peer weight and volatility, no aid. -/
def demoParams : Params :=
  { N := 5, k_degree := 2, rewiring_prob := 0, base_dropout_rate := 1/2,
    peer_influence_weight := 0, performance_volatility := 0, financial_aid_policy := false }

/-- Identity shuffle, all-zero normal draws, no rewiring draws. -/
def demoRand : ConstructRand :=
  { shuffle_ses := id, init_draws := fun _ => 0, ws_draws := [] }

/-- The model built from `demoParams` and `demoRand`. -/
def demoModel : SchoolModel :=
  match SchoolModel.construct demoParams demoRand with
  | .ok m => m
  | .error _ => emptyModel

lemma demoModel_construct : SchoolModel.construct demoParams demoRand = .ok demoModel := by
  rfl

/-- A per-step draw bundle whose dropout draws are all above 1/2. -/
def demoStepA : StepRand :=
  { order := [0, 1, 2, 3, 4], fluct_draws := fun _ => 0, drop_draws := fun _ => 3/4 }

/-- Same activation order as `demoStepA`, but agent 2 draws 1/4 < 1/2. -/
def demoStepB : StepRand :=
  { order := [0, 1, 2, 3, 4], fluct_draws := fun _ => 0,
    drop_draws := fun i => if i = 2 then 1/4 else 3/4 }

/-! ### Dropped-out agents are frozen -/

lemma stepAgentAt_dropped_fixed (m : SchoolModel) (j : Nat) (z u : ℚ) (i : Nat)
    (a : StudentAgent) (ha : m.agents[i]? = some a) (hd : a.status = Status.DroppedOut) :
    (m.stepAgentAt j z u).agents[i]? = some a := by
  rw [SchoolModel.stepAgentAt_agents, ha]
  simp [StudentAgent.step_dropped m a z u hd]

lemma agentPass_dropped_fixed (m : SchoolModel) (sr : StepRand) (i : Nat)
    (a : StudentAgent) (ha : m.agents[i]? = some a) (hd : a.status = Status.DroppedOut) :
    (m.agentPass sr).agents[i]? = some a := by
  unfold SchoolModel.agentPass
  exact foldl_preserves (P := fun mm : SchoolModel => mm.agents[i]? = some a)
    (by intro b x hb; exact stepAgentAt_dropped_fixed b x _ _ i a hb hd) sr.order m ha

lemma step_dropped_fixed (m : SchoolModel) (sr : StepRand) (i : Nat)
    (a : StudentAgent) (ha : m.agents[i]? = some a) (hd : a.status = Status.DroppedOut) :
    (m.step sr).agents[i]? = some a := by
  unfold SchoolModel.step
  exact agentPass_dropped_fixed _ sr i a ha hd

lemma run_dropped_fixed (m : SchoolModel) (srs : List StepRand) (i : Nat)
    (a : StudentAgent) (ha : m.agents[i]? = some a) (hd : a.status = Status.DroppedOut) :
    (m.run srs).agents[i]? = some a := by
  induction srs generalizing m with
  | nil => exact ha
  | cons sr rest ih => exact ih (m.step sr) (step_dropped_fixed m sr i a ha hd)

/-- Claim C2: status transitions are one-way.  A `DroppedOut` agent's `step`
is the identity (status and performance both unchanged), and once an agent
in the model is `DroppedOut` it stays exactly as it is (same status, same
performance) through any later sequence of `step()` calls. -/
theorem C2_dropout_is_absorbing :
    (∀ (m : SchoolModel) (a : StudentAgent) (z u : ℚ),
        a.status = Status.DroppedOut → StudentAgent.step m a z u = a) ∧
    (∀ (m : SchoolModel) (srs : List StepRand) (i : Nat) (a : StudentAgent),
        m.agents[i]? = some a → a.status = Status.DroppedOut →
        (m.run srs).agents[i]? = some a) :=
  ⟨fun m a z u h => StudentAgent.step_dropped m a z u h,
   fun m srs i a ha hd => run_dropped_fixed m srs i a ha hd⟩

/-- A dropped-out agent used by the C2 witness. -/
def demoDropped : StudentAgent :=
  { unique_id := 0, pos := 0, performance := 42, ses := SES.Low, status := Status.DroppedOut }

/-- A one-agent model holding `demoDropped`. -/
def demoDroppedModel : SchoolModel := { emptyModel with agents := [demoDropped] }

theorem C2_dropout_is_absorbing_witness :
    StudentAgent.step emptyModel demoDropped 1 0 = demoDropped ∧
    (demoDroppedModel.run [demoStepA, demoStepB]).agents[0]? = some demoDropped :=
  ⟨C2_dropout_is_absorbing.1 emptyModel demoDropped 1 0 rfl,
   C2_dropout_is_absorbing.2 demoDroppedModel [demoStepA, demoStepB] 0 demoDropped rfl rfl⟩

/-! ### Performance stays in range -/

lemma np_clip_le_hi (x lo hi : ℚ) : np_clip x lo hi ≤ hi := min_le_left _ _

lemma lo_le_np_clip (x lo hi : ℚ) (h : lo ≤ hi) : lo ≤ np_clip x lo hi :=
  le_min h (le_max_left _ _)

lemma initial_performance_mem (z : ℚ) :
    50 ≤ initial_performance z ∧ initial_performance z ≤ 95 :=
  ⟨lo_le_np_clip _ _ _ (by norm_num), np_clip_le_hi _ _ _⟩

lemma step_performance_mem (m : SchoolModel) (a : StudentAgent) (z u : ℚ)
    (h0 : 0 ≤ a.performance) (h1 : a.performance ≤ 100) :
    0 ≤ (StudentAgent.step m a z u).performance ∧
      (StudentAgent.step m a z u).performance ≤ 100 := by
  unfold StudentAgent.step
  split
  · exact ⟨h0, h1⟩
  · exact ⟨lo_le_np_clip _ _ _ (by norm_num), np_clip_le_hi _ _ _⟩

/-- All performances lie in `[0, 100]` (executable form). -/
def perf_in_range (m : SchoolModel) : Bool :=
  m.agents.all (fun a => decide (0 ≤ a.performance) && decide (a.performance ≤ 100))

lemma perf_in_range_iff (m : SchoolModel) :
    perf_in_range m = true ↔ ∀ a ∈ m.agents, 0 ≤ a.performance ∧ a.performance ≤ 100 := by
  simp [perf_in_range]

lemma stepAgentAt_perf_mem (m : SchoolModel) (j : Nat) (z u : ℚ)
    (h : ∀ a ∈ m.agents, 0 ≤ a.performance ∧ a.performance ≤ 100) :
    ∀ a ∈ (m.stepAgentAt j z u).agents, 0 ≤ a.performance ∧ a.performance ≤ 100 := by
  intro b hb
  simp only [SchoolModel.stepAgentAt, List.mem_map] at hb
  obtain ⟨a, ha, rfl⟩ := hb
  obtain ⟨h0, h1⟩ := h a ha
  by_cases hc : a.unique_id = j
  · simpa [hc] using step_performance_mem m a z u h0 h1
  · simpa [hc] using ⟨h0, h1⟩

lemma agentPass_perf_mem (m : SchoolModel) (sr : StepRand)
    (h : ∀ a ∈ m.agents, 0 ≤ a.performance ∧ a.performance ≤ 100) :
    ∀ a ∈ (m.agentPass sr).agents, 0 ≤ a.performance ∧ a.performance ≤ 100 := by
  unfold SchoolModel.agentPass
  exact foldl_preserves
    (P := fun mm : SchoolModel => ∀ a ∈ mm.agents, 0 ≤ a.performance ∧ a.performance ≤ 100)
    (by intro b x hb; exact stepAgentAt_perf_mem b x _ _ hb) sr.order m h

lemma step_perf_mem (m : SchoolModel) (sr : StepRand)
    (h : ∀ a ∈ m.agents, 0 ≤ a.performance ∧ a.performance ≤ 100) :
    ∀ a ∈ (m.step sr).agents, 0 ≤ a.performance ∧ a.performance ≤ 100 := by
  unfold SchoolModel.step
  exact agentPass_perf_mem _ sr h

lemma run_perf_mem (m : SchoolModel) (srs : List StepRand)
    (h : ∀ a ∈ m.agents, 0 ≤ a.performance ∧ a.performance ≤ 100) :
    ∀ a ∈ (m.run srs).agents, 0 ≤ a.performance ∧ a.performance ≤ 100 := by
  induction srs generalizing m with
  | nil => exact h
  | cons sr rest ih => exact ih (m.step sr) (step_perf_mem m sr h)

/-! ### Characterizing successful construction -/

lemma build_agents_ok_spec (dist : List SES) (zs : Nat → ℚ) :
    ∀ (nodes : List Nat) (i0 : Nat) (l : List StudentAgent),
      build_agents dist zs nodes i0 = .ok l →
      l.length = nodes.length ∧
      ∀ (j : Nat) (a : StudentAgent), l[j]? = some a →
        a.unique_id = i0 + j ∧ nodes[j]? = some a.pos ∧ a.status = Status.Attending ∧
        a.performance = initial_performance (zs (i0 + j)) ∧ dist[i0 + j]? = some a.ses := by
  intro nodes
  induction nodes with
  | nil =>
    intro i0 l h
    simp only [build_agents] at h
    cases h
    exact ⟨rfl, by intro j a hj; simp at hj⟩
  | cons node rest ih =>
    intro i0 l h
    rw [build_agents] at h
    cases hd : dist[i0]? with
    | none => rw [hd] at h; exact absurd h (by simp)
    | some s =>
      rw [hd] at h
      cases hrec : build_agents dist zs rest (i0 + 1) with
      | error e => rw [hrec] at h; exact absurd h (by simp [Bind.bind, Except.bind])
      | ok tail =>
        rw [hrec] at h
        simp only [Bind.bind, Except.bind, Except.ok.injEq] at h
        obtain ⟨hlen, hall⟩ := ih (i0 + 1) tail hrec
        subst h
        constructor
        · simpa using hlen
        · intro j a hj
          cases j with
          | zero =>
            simp only [List.getElem?_cons_zero, Option.some.injEq] at hj
            subst hj
            exact ⟨by simp, by simp, rfl, by simp, by simpa using hd⟩
          | succ j2 =>
            simp only [List.getElem?_cons_succ] at hj
            obtain ⟨hid, hpos, hst, hperf, hses⟩ := hall j2 a hj
            refine ⟨by rw [hid]; omega, by simpa using hpos, hst, ?_, ?_⟩
            · have : i0 + (j2 + 1) = i0 + 1 + j2 := by omega
              rw [this]; exact hperf
            · have : i0 + (j2 + 1) = i0 + 1 + j2 := by omega
              rw [this]; exact hses

lemma construct_ok_spec (p : Params) (rho : ConstructRand) (m : SchoolModel)
    (h : SchoolModel.construct p rho = .ok m) :
    ∃ G agents,
      watts_strogatz_graph p.N p.k_degree p.rewiring_prob rho.ws_draws = .ok G ∧
      build_agents (rho.shuffle_ses (ses_distribution p.N)) rho.init_draws G.nodeList 0
        = .ok agents ∧
      m = { running := true, n_agents := p.N, steps := 0,
            base_dropout_rate := p.base_dropout_rate,
            peer_influence_weight := p.peer_influence_weight,
            performance_volatility := p.performance_volatility,
            financial_aid_policy := p.financial_aid_policy,
            G := G, agents := agents, records := [] } := by
  unfold SchoolModel.construct at h
  cases hg : watts_strogatz_graph p.N p.k_degree p.rewiring_prob rho.ws_draws with
  | error e => rw [hg] at h; exact absurd h (by simp [Bind.bind, Except.bind])
  | ok G =>
    rw [hg] at h
    simp only [Bind.bind, Except.bind] at h
    cases hb : build_agents (rho.shuffle_ses (ses_distribution p.N)) rho.init_draws
        G.nodeList 0 with
    | error e => rw [hb] at h; exact absurd h (by simp)
    | ok agents =>
      rw [hb] at h
      simp only [Except.ok.injEq] at h
      exact ⟨G, agents, rfl, hb, h.symm⟩

/-- Claim C3: for every agent, after construction and any number of `step()`
calls, for any sequence of random draws, performance lies in `[0, 100]`. -/
theorem C3_performance_always_in_range (p : Params) (rho : ConstructRand)
    (m : SchoolModel) (srs : List StepRand)
    (h : SchoolModel.construct p rho = .ok m) :
    perf_in_range (m.run srs) = true := by
  obtain ⟨G, agents, _, hb, hm⟩ := construct_ok_spec p rho m h
  rw [perf_in_range_iff]
  apply run_perf_mem
  intro a ha
  obtain ⟨_, hall⟩ := build_agents_ok_spec _ _ _ _ _ hb
  have hmem : a ∈ agents := by rw [hm] at ha; exact ha
  obtain ⟨j, hj⟩ := List.getElem?_of_mem hmem
  obtain ⟨_, _, _, hperf, _⟩ := hall j a hj
  rw [hperf]
  obtain ⟨h50, h95⟩ := initial_performance_mem (rho.init_draws (0 + j))
  constructor
  · linarith
  · linarith

theorem C3_performance_always_in_range_witness :
    perf_in_range (demoModel.run [demoStepA, demoStepB]) = true :=
  C3_performance_always_in_range demoParams demoRand demoModel [demoStepA, demoStepB] (by rfl)

/-! ### Initial state -/

/-- All performances lie in `[50, 95]` and all statuses are `Attending`
(executable form). -/
def init_in_range (m : SchoolModel) : Bool :=
  m.agents.all (fun a => decide (50 ≤ a.performance) && decide (a.performance ≤ 95)
    && decide (a.status = Status.Attending))

/-- Claim C10: at construction each agent's performance is the normal draw
with mean `INITIAL_PERFORMANCE_MEAN = 75` and standard deviation
`INITIAL_PERFORMANCE_STD = 10` clamped by `np.clip` to `[50, 95]`, hence
lies in `[50, 95]` (inside the documented `[0, 100]`), and each agent
starts `Attending`. -/
theorem C10_initial_state (p : Params) (rho : ConstructRand) (m : SchoolModel)
    (h : SchoolModel.construct p rho = .ok m) :
    init_in_range m = true ∧
    ∀ a ∈ m.agents, ∃ z, a.performance =
      np_clip (normal_sample INITIAL_PERFORMANCE_MEAN INITIAL_PERFORMANCE_STD z) 50 95 := by
  obtain ⟨G, agents, _, hb, hm⟩ := construct_ok_spec p rho m h
  obtain ⟨_, hall⟩ := build_agents_ok_spec _ _ _ _ _ hb
  constructor
  · simp only [init_in_range, List.all_eq_true]
    intro a ha
    have hmem : a ∈ agents := by rw [hm] at ha; exact ha
    obtain ⟨j, hj⟩ := List.getElem?_of_mem hmem
    obtain ⟨_, _, hst, hperf, _⟩ := hall j a hj
    obtain ⟨h50, h95⟩ := initial_performance_mem (rho.init_draws (0 + j))
    rw [hperf]
    simp only [Bool.and_eq_true, decide_eq_true_eq]
    exact ⟨⟨h50, h95⟩, hst⟩
  · intro a ha
    have hmem : a ∈ agents := by rw [hm] at ha; exact ha
    obtain ⟨j, hj⟩ := List.getElem?_of_mem hmem
    obtain ⟨_, _, _, hperf, _⟩ := hall j a hj
    exact ⟨rho.init_draws (0 + j), hperf⟩

theorem C10_initial_state_witness : init_in_range demoModel = true :=
  (C10_initial_state demoParams demoRand demoModel (by rfl)).1

/-! ### Financial aid -/

lemma peer_influence_score_nonneg (m : SchoolModel) (a : StudentAgent) :
    0 ≤ StudentAgent.peer_influence_score m a := by
  unfold StudentAgent.peer_influence_score
  dsimp only
  split
  · exact le_refl 0
  · positivity

lemma performance_risk_nonneg (perf : ℚ) : 0 ≤ performance_risk perf := by
  unfold performance_risk PERFORMANCE_THRESHOLD
  positivity

lemma p_drop_nonneg (m : SchoolModel) (a : StudentAgent) (perf : ℚ)
    (hb : 0 ≤ m.base_dropout_rate) (hw0 : 0 ≤ m.peer_influence_weight)
    (hw1 : m.peer_influence_weight ≤ 1) :
    0 ≤ StudentAgent.p_drop m a perf := by
  unfold StudentAgent.p_drop
  have h1 : 0 ≤ performance_risk perf * (1 - m.peer_influence_weight) :=
    mul_nonneg (performance_risk_nonneg perf) (by linarith)
  have h2 : 0 ≤ StudentAgent.peer_influence_score m a * m.peer_influence_weight :=
    mul_nonneg (peer_influence_score_nonneg m a) hw0
  linarith

/-- Claim C8: with `base_dropout_rate ≥ 0` and `peer_influence_weight` in
`[0, 1]`, enabling the aid never increases a Low-SES agent's dropout
probability; the aid branch multiplies `p_drop` by
`1 - FINANCIAL_AID_EFFECTIVENESS = 1 - 0.4` and applies only when
`ses == Low`. -/
theorem C8_financial_aid_never_increases_risk :
    (∀ (m : SchoolModel) (a : StudentAgent) (perf : ℚ),
        0 ≤ m.base_dropout_rate → 0 ≤ m.peer_influence_weight →
        m.peer_influence_weight ≤ 1 → a.ses = SES.Low →
        financial_aid_adjust true a.ses (StudentAgent.p_drop m a perf) ≤
          financial_aid_adjust false a.ses (StudentAgent.p_drop m a perf)) ∧
    (∀ q : ℚ, financial_aid_adjust true SES.Low q = q * (1 - FINANCIAL_AID_EFFECTIVENESS)) ∧
    (∀ (policy : Bool) (s : SES) (q : ℚ), s ≠ SES.Low → financial_aid_adjust policy s q = q) ∧
    (∀ (s : SES) (q : ℚ), financial_aid_adjust false s q = q) := by
  refine ⟨?_, ?_, ?_, ?_⟩
  · intro m a perf hb hw0 hw1 hses
    have hp := p_drop_nonneg m a perf hb hw0 hw1
    rw [hses]
    simp only [financial_aid_adjust, FINANCIAL_AID_EFFECTIVENESS]
    norm_num
    linarith
  · intro q
    simp [financial_aid_adjust]
  · intro policy s q hs
    simp [financial_aid_adjust, hs]
  · intro s q
    simp [financial_aid_adjust]

theorem C8_financial_aid_never_increases_risk_witness :
    financial_aid_adjust true demoDropped.ses (StudentAgent.p_drop emptyModel demoDropped 55) ≤
      financial_aid_adjust false demoDropped.ses (StudentAgent.p_drop emptyModel demoDropped 55) ∧
    financial_aid_adjust true SES.Low 2 = 2 * (1 - FINANCIAL_AID_EFFECTIVENESS) ∧
    financial_aid_adjust true SES.High 2 = 2 ∧
    financial_aid_adjust false SES.Medium 3 = 3 :=
  ⟨C8_financial_aid_never_increases_risk.1 emptyModel demoDropped 55
      (le_refl 0) (le_refl 0) (by norm_num [emptyModel]) rfl,
   C8_financial_aid_never_increases_risk.2.1 2,
   C8_financial_aid_never_increases_risk.2.2.1 true SES.High 2 (by simp),
   C8_financial_aid_never_increases_risk.2.2.2 SES.Medium 3⟩

/-! ### Dropout-rate accessors -/

lemma get_dropout_rate_eq (m : SchoolModel) :
    m.get_dropout_rate =
      ((m.agents.countP (fun a => decide (a.status = Status.DroppedOut)) : ℚ)
        / (m.n_agents : ℚ)) * 100 := rfl

lemma get_dropout_by_ses_eq (m : SchoolModel) (s : SES) :
    m.get_dropout_by_ses s =
      if m.agents.filter (fun a => decide (a.ses = s)) = [] then 0
      else (((m.agents.filter (fun a => decide (a.ses = s))).countP
          (fun a => decide (a.status = Status.DroppedOut)) : ℚ)
        / ((m.agents.filter (fun a => decide (a.ses = s))).length : ℚ)) * 100 := rfl

/-- Claim C7: the total accessor equals `(#DroppedOut)/N × 100` (here
reconciled against an independent `filter`-based count), the per-tier
accessor returns `0` on an empty tier and the tier percentage otherwise,
and all returned values lie in `[0, 100]`.  Both accessors are pure
functions of the state: in this embedding they cannot mutate agents or
model fields. -/
theorem C7_dropout_rate_accessors (m : SchoolModel)
    (hlen : m.agents.length = m.n_agents) (hpos : 0 < m.n_agents) :
    m.get_dropout_rate =
      ((m.agents.filter (fun a => decide (a.status = Status.DroppedOut))).length : ℚ)
        / (m.n_agents : ℚ) * 100 ∧
    (0 ≤ m.get_dropout_rate ∧ m.get_dropout_rate ≤ 100) ∧
    (∀ s : SES, m.agents.filter (fun a => decide (a.ses = s)) = [] →
        m.get_dropout_by_ses s = 0) ∧
    (∀ s : SES, m.agents.filter (fun a => decide (a.ses = s)) ≠ [] →
        m.get_dropout_by_ses s =
          (((m.agents.filter (fun a => decide (a.ses = s))).filter
              (fun a => decide (a.status = Status.DroppedOut))).length : ℚ)
            / ((m.agents.filter (fun a => decide (a.ses = s))).length : ℚ) * 100) ∧
    (∀ s : SES, 0 ≤ m.get_dropout_by_ses s ∧ m.get_dropout_by_ses s ≤ 100) := by
  refine ⟨?_, ⟨?_, ?_⟩, ?_, ?_, ?_⟩
  · rw [get_dropout_rate_eq, List.countP_eq_length_filter]
  · rw [get_dropout_rate_eq]
    positivity
  · rw [get_dropout_rate_eq]
    have hc : (m.agents.countP (fun a => decide (a.status = Status.DroppedOut)) : ℚ)
        ≤ (m.n_agents : ℚ) := by
      rw [← hlen]
      exact_mod_cast List.countP_le_length _
    have hn : (0 : ℚ) < (m.n_agents : ℚ) := by exact_mod_cast hpos
    have hdiv : (m.agents.countP (fun a => decide (a.status = Status.DroppedOut)) : ℚ)
        / (m.n_agents : ℚ) ≤ 1 := by
      rw [div_le_one hn]; exact hc
    have hdiv0 : (0 : ℚ) ≤ (m.agents.countP (fun a => decide (a.status = Status.DroppedOut)) : ℚ)
        / (m.n_agents : ℚ) := by positivity
    linarith
  · intro s hs
    rw [get_dropout_by_ses_eq, if_pos hs]
  · intro s hs
    rw [get_dropout_by_ses_eq, if_neg hs, List.countP_eq_length_filter]
  · intro s
    rw [get_dropout_by_ses_eq]
    by_cases hs : m.agents.filter (fun a => decide (a.ses = s)) = []
    · rw [if_pos hs]
      norm_num
    · rw [if_neg hs]
      have hlenpos : 0 < (m.agents.filter (fun a => decide (a.ses = s))).length :=
        List.length_pos.2 hs
      have hn : (0 : ℚ) < ((m.agents.filter (fun a => decide (a.ses = s))).length : ℚ) := by
        exact_mod_cast hlenpos
      have hc : ((m.agents.filter (fun a => decide (a.ses = s))).countP
          (fun a => decide (a.status = Status.DroppedOut)) : ℚ)
          ≤ ((m.agents.filter (fun a => decide (a.ses = s))).length : ℚ) := by
        exact_mod_cast List.countP_le_length _
      have hdiv : ((m.agents.filter (fun a => decide (a.ses = s))).countP
          (fun a => decide (a.status = Status.DroppedOut)) : ℚ)
          / ((m.agents.filter (fun a => decide (a.ses = s))).length : ℚ) ≤ 1 := by
        rw [div_le_one hn]; exact hc
      have hdiv0 : (0 : ℚ) ≤ ((m.agents.filter (fun a => decide (a.ses = s))).countP
          (fun a => decide (a.status = Status.DroppedOut)) : ℚ)
          / ((m.agents.filter (fun a => decide (a.ses = s))).length : ℚ) := by positivity
      constructor
      · positivity
      · linarith

theorem C7_dropout_rate_accessors_witness :
    (0 ≤ demoModel.get_dropout_rate ∧ demoModel.get_dropout_rate ≤ 100) ∧
    (0 ≤ demoModel.get_dropout_by_ses SES.High ∧
      demoModel.get_dropout_by_ses SES.High ≤ 100) :=
  ⟨(C7_dropout_rate_accessors demoModel rfl
      (by rw [show demoModel.n_agents = 5 from rfl]; norm_num)).2.1,
   (C7_dropout_rate_accessors demoModel rfl
      (by rw [show demoModel.n_agents = 5 from rfl]; norm_num)).2.2.2.2 SES.High⟩

/-! ### Step counter and snapshot ordering -/

lemma step_records (m : SchoolModel) (sr : StepRand) :
    (m.step sr).records = m.records ++ [m.collectRow] := by
  unfold SchoolModel.step
  rw [SchoolModel.agentPass_records]
  rfl

lemma run_records_append (m : SchoolModel) (srs : List StepRand) :
    ∃ l, (m.run srs).records = m.records ++ l := by
  induction srs generalizing m with
  | nil => exact ⟨[], by simp [SchoolModel.run]⟩
  | cons sr rest ih =>
    obtain ⟨l, hl⟩ := ih (m.step sr)
    refine ⟨[m.collectRow] ++ l, ?_⟩
    show ((m.step sr).run rest).records = m.records ++ ([m.collectRow] ++ l)
    rw [hl, step_records, List.append_assoc]

lemma run_records_getElem (srs : List StepRand) :
    ∀ (m : SchoolModel) (k : Nat), k < srs.length →
      (m.run srs).records[m.records.length + k]? =
        some ((m.run (srs.take k)).collectRow) := by
  induction srs with
  | nil => intro m k hk; simp at hk
  | cons sr rest ih =>
    intro m k hk
    cases k with
    | zero =>
      obtain ⟨l, hl⟩ := run_records_append (m.step sr) rest
      show ((m.step sr).run rest).records[m.records.length + 0]? = some m.collectRow
      rw [hl, step_records, List.append_assoc]
      rw [List.getElem?_append_right (by omega)]
      simp
    | succ k2 =>
      have hrec := ih (m.step sr) k2 (by simpa using hk)
      rw [step_records] at hrec
      have hlen : (m.records ++ [m.collectRow]).length = m.records.length + 1 := by simp
      rw [hlen] at hrec
      show ((m.step sr).run rest).records[m.records.length + (k2 + 1)]? =
        some (((m.step sr).run (rest.take k2)).collectRow)
      have harith : m.records.length + (k2 + 1) = m.records.length + 1 + k2 := by omega
      rw [harith]
      exact hrec

/-- Claim C9: `steps` starts at `0` at construction and each `step()` call
increments it by exactly one; within a call the metrics row is appended
before the agent pass runs, so the row collected by the `(k+1)`-th call
(index `k`) is the snapshot of the state after only `k` agent-update
passes. -/
theorem C9_step_counter_and_snapshot_order :
    (∀ (p : Params) (rho : ConstructRand) (m : SchoolModel),
        SchoolModel.construct p rho = .ok m → m.steps = 0) ∧
    (∀ (m : SchoolModel) (sr : StepRand), (m.step sr).steps = m.steps + 1) ∧
    (∀ (m : SchoolModel) (sr : StepRand),
        (m.step sr).records = m.records ++ [m.collectRow]) ∧
    (∀ (p : Params) (rho : ConstructRand) (m : SchoolModel) (srs : List StepRand) (k : Nat),
        SchoolModel.construct p rho = .ok m → k < srs.length →
        (m.run srs).records[k]? = some ((m.run (srs.take k)).collectRow)) := by
  refine ⟨?_, ?_, ?_, ?_⟩
  · intro p rho m h
    obtain ⟨G, agents, _, _, hm⟩ := construct_ok_spec p rho m h
    rw [hm]
  · exact SchoolModel.step_steps
  · exact step_records
  · intro p rho m srs k h hk
    obtain ⟨G, agents, _, _, hm⟩ := construct_ok_spec p rho m h
    have hrec0 : m.records = [] := by rw [hm]
    have := run_records_getElem srs m k hk
    rw [hrec0] at this
    simpa using this

theorem C9_step_counter_and_snapshot_order_witness :
    demoModel.steps = 0 ∧
    (demoModel.step demoStepA).steps = demoModel.steps + 1 ∧
    (demoModel.run [demoStepA, demoStepB]).records[1]? =
      some ((demoModel.run ([demoStepA, demoStepB].take 1)).collectRow) :=
  ⟨C9_step_counter_and_snapshot_order.1 demoParams demoRand demoModel (by rfl),
   C9_step_counter_and_snapshot_order.2.1 demoModel demoStepA,
   C9_step_counter_and_snapshot_order.2.2.2 demoParams demoRand demoModel
     [demoStepA, demoStepB] 1 (by rfl) (by norm_num)⟩

/-! ### Determinism -/

/-- Claim C6 counterexample: two runs with identical parameters, identical
construction draws, and identical (seeded) activation orders, but
different global-numpy dropout draws, produce different metrics
sequences.  The code seeds only the model-owned `random.Random(42)`
stream; the numpy draws are unseeded, so a second run in the same process
consumes different values and "identical parameters and identical seed"
do not pin the metrics. -/
theorem C6_determinism_counterexample :
    (demoModel.run [demoStepA, demoStepA]).records ≠
      (demoModel.run [demoStepB, demoStepB]).records := by
  intro h
  have h1 : ((demoModel.run [demoStepA, demoStepA]).records.map
      (fun r => r.total_dropout_rate)) = [0, 0] := by with_unfolding_all rfl
  have h2 : ((demoModel.run [demoStepB, demoStepB]).records.map
      (fun r => r.total_dropout_rate)) = [0, 20] := by with_unfolding_all rfl
  rw [h, h2] at h1
  norm_num at h1

/-- Claim C6 (amended): two model instances produce identical metrics
sequences when constructed with identical parameters and identical random
draws — including the unseeded global numpy draws used for the SES
shuffle, initial performances, fluctuations, and dropout decisions — and
stepped with identical draw sequences.  The fixed seed 42 alone fixes
only the activation orders, not the numpy draws. -/
theorem C6_determinism_given_equal_draws (p : Params) (rho1 rho2 : ConstructRand)
    (srs1 srs2 : List StepRand) (m1 m2 : SchoolModel)
    (h1 : SchoolModel.construct p rho1 = .ok m1)
    (h2 : SchoolModel.construct p rho2 = .ok m2)
    (hsh : rho1.shuffle_ses = rho2.shuffle_ses)
    (hinit : rho1.init_draws = rho2.init_draws)
    (hws : rho1.ws_draws = rho2.ws_draws)
    (hsrs : srs1 = srs2) :
    (m1.run srs1).records = (m2.run srs2).records := by
  have hrho : rho1 = rho2 := by
    cases rho1; cases rho2
    simp_all
  subst hrho
  subst hsrs
  rw [h1] at h2
  injection h2 with h3
  subst h3
  rfl

theorem C6_determinism_given_equal_draws_witness :
    (demoModel.run [demoStepA]).records = (demoModel.run [demoStepA]).records :=
  C6_determinism_given_equal_draws demoParams demoRand demoRand [demoStepA] [demoStepA]
    demoModel demoModel (by rfl) (by rfl) rfl rfl rfl rfl

/-! ### Graph generator invariants -/

lemma foldl_preserves_mem {α β : Type} {P : β → Prop} {f : β → α → β} :
    ∀ (l : List α), (∀ b a, a ∈ l → P b → P (f b a)) → ∀ b, P b → P (l.foldl f b) := by
  intro l
  induction l with
  | nil => intro _ b hb; exact hb
  | cons x xs ih =>
    intro h b hb
    exact ih (fun b2 a ha hb2 => h b2 a (List.mem_cons_of_mem x ha) hb2) (f b x)
      (h b x (List.mem_cons_self x xs) hb)

lemma addNode_nodeList_of_mem {G : NxGraph} {u : Nat} (h : u ∈ G.nodeList) :
    (G.addNode u).nodeList = G.nodeList := by
  simp [NxGraph.addNode, h]

lemma addNode_nodeList_of_not_mem {G : NxGraph} {u : Nat} (h : u ∉ G.nodeList) :
    (G.addNode u).nodeList = G.nodeList ++ [u] := by
  simp [NxGraph.addNode, h]

lemma addNode_adj (G : NxGraph) (u : Nat) : (G.addNode u).adj = G.adj := by
  unfold NxGraph.addNode
  split <;> rfl

lemma addEdge_nodeList (G : NxGraph) (u v : Nat) :
    (G.addEdge u v).nodeList = ((G.addNode u).addNode v).nodeList := by
  unfold NxGraph.addEdge
  dsimp only
  split <;> rfl

lemma addEdge_nodeList_of_mem {G : NxGraph} {u v : Nat}
    (hu : u ∈ G.nodeList) (hv : v ∈ G.nodeList) :
    (G.addEdge u v).nodeList = G.nodeList := by
  rw [addEdge_nodeList]
  have h1 : (G.addNode u).nodeList = G.nodeList := addNode_nodeList_of_mem hu
  rw [addNode_nodeList_of_mem (by rw [h1]; exact hv), h1]

lemma removeEdge_nodeList (G : NxGraph) (u v : Nat) :
    (G.removeEdge u v).nodeList = G.nodeList := rfl

lemma addEdge_adj_of_mem {G : NxGraph} {u v : Nat} (h : (u, v) ∈ G.adj) :
    (G.addEdge u v).adj = G.adj := by
  unfold NxGraph.addEdge
  dsimp only
  rw [if_pos (by simpa [addNode_adj] using h)]
  simp [addNode_adj]

lemma addEdge_adj_of_not_mem {G : NxGraph} {u v : Nat} (h : (u, v) ∉ G.adj) :
    (G.addEdge u v).adj = (u, v) :: (v, u) :: G.adj := by
  unfold NxGraph.addEdge
  dsimp only
  rw [if_neg (by simpa [addNode_adj] using h)]
  simp [addNode_adj]

/-- The simple-graph invariant on the adjacency list: no self-loops, both
orientations present, no duplicate entries (no parallel edges). -/
def EdgeInvAdj (l : List (Nat × Nat)) : Prop :=
  (∀ u : Nat, (u, u) ∉ l) ∧ (∀ u v : Nat, (u, v) ∈ l → (v, u) ∈ l) ∧ l.Nodup

def EdgeInv (G : NxGraph) : Prop := EdgeInvAdj G.adj

lemma edgeInv_empty : EdgeInv NxGraph.empty := by
  refine ⟨?_, ?_, ?_⟩ <;> simp [NxGraph.empty]

lemma edgeInv_addEdge {G : NxGraph} {u v : Nat} (huv : u ≠ v) (hi : EdgeInv G) :
    EdgeInv (G.addEdge u v) := by
  obtain ⟨hirr, hsym, hnd⟩ := hi
  by_cases hm : (u, v) ∈ G.adj
  · unfold EdgeInv
    rw [addEdge_adj_of_mem hm]
    exact ⟨hirr, hsym, hnd⟩
  · unfold EdgeInv
    rw [addEdge_adj_of_not_mem hm]
    have hvu : (v, u) ∉ G.adj := fun hc => hm (hsym v u hc)
    refine ⟨?_, ?_, ?_⟩
    · intro x hc
      simp only [List.mem_cons, Prod.mk.injEq] at hc
      rcases hc with ⟨h1, h2⟩ | ⟨h1, h2⟩ | h3
      · exact huv (h1.symm.trans h2)
      · exact huv (h2.symm.trans h1)
      · exact hirr x h3
    · intro a b hab
      simp only [List.mem_cons, Prod.mk.injEq] at hab ⊢
      rcases hab with ⟨ha, hb⟩ | h2 | h3
      · subst ha; subst hb; right; left; exact ⟨rfl, rfl⟩
      · obtain ⟨ha, hb⟩ := h2; subst ha; subst hb; left; exact ⟨rfl, rfl⟩
      · right; right; exact hsym a b h3
    · refine List.nodup_cons.2 ⟨?_, List.nodup_cons.2 ⟨hvu, hnd⟩⟩
      simp only [List.mem_cons, Prod.mk.injEq]
      push_neg
      exact ⟨fun he => absurd he huv, hm⟩

lemma edgeInv_removeEdge {G : NxGraph} (u v : Nat) (hi : EdgeInv G) :
    EdgeInv (G.removeEdge u v) := by
  obtain ⟨hirr, hsym, hnd⟩ := hi
  unfold EdgeInv NxGraph.removeEdge EdgeInvAdj
  dsimp only
  refine ⟨?_, ?_, ?_⟩
  · intro x hc
    exact hirr x (List.mem_of_mem_filter hc)
  · intro a b hab
    rw [List.mem_filter] at hab ⊢
    obtain ⟨hmem, hpred⟩ := hab
    simp only [Bool.and_eq_true, decide_eq_true_eq] at hpred
    refine ⟨hsym a b hmem, ?_⟩
    simp only [Bool.and_eq_true, decide_eq_true_eq]
    constructor
    · intro hc
      exact hpred.2 (by simpa [Prod.ext_iff] using congrArg (fun e : Nat × Nat => (e.2, e.1)) hc)
    · intro hc
      exact hpred.1 (by simpa [Prod.ext_iff] using congrArg (fun e : Nat × Nat => (e.2, e.1)) hc)
  · exact List.Nodup.filter _ hnd

lemma pick_rewire_target_spec (G : NxGraph) (n u : Nat) :
    ∀ (w : Nat) (rest : List Nat) (w2 : Nat),
      pick_rewire_target G n u w rest = some w2 →
      w2 ≠ u ∧ (w2 = w ∨ w2 ∈ rest) := by
  intro w rest
  induction rest generalizing w with
  | nil =>
    intro w2 h
    rw [pick_rewire_target] at h
    split at h
    · next hok =>
      push_neg at hok
      cases h
      exact ⟨hok.1, Or.inl rfl⟩
    · split at h <;> exact absurd h (by simp)
  | cons x rest2 ih =>
    intro w2 h
    rw [pick_rewire_target] at h
    split at h
    · next hok =>
      push_neg at hok
      cases h
      exact ⟨hok.1, Or.inl rfl⟩
    · split at h
      · exact absurd h (by simp)
      · obtain ⟨hne, hor⟩ := ih x w2 h
        refine ⟨hne, Or.inr ?_⟩
        rcases hor with h1 | h1
        · exact h1 ▸ List.mem_cons_self x rest2
        · exact List.mem_cons_of_mem x h1

lemma rewire_step_edgeInv {G : NxGraph} (n : Nat) (p : ℚ) (uv : Nat × Nat)
    (d : ℚ × List Nat) (hi : EdgeInv G) : EdgeInv (rewire_step n p G uv d) := by
  unfold rewire_step
  split
  · cases hd2 : d.2 with
    | nil => exact hi
    | cons w ws =>
      show EdgeInv (match pick_rewire_target G n uv.1 w ws with
        | some w2 => (G.removeEdge uv.1 uv.2).addEdge uv.1 w2
        | none => G)
      cases hp : pick_rewire_target G n uv.1 w ws with
      | none => exact hi
      | some w2 =>
        obtain ⟨hne, _⟩ := pick_rewire_target_spec G n uv.1 w ws w2 hp
        exact edgeInv_addEdge (fun hc => hne hc.symm) (edgeInv_removeEdge uv.1 uv.2 hi)
  · exact hi

lemma rewire_step_nodeList {G : NxGraph} {n : Nat} (p : ℚ) (uv : Nat × Nat)
    (d : ℚ × List Nat) (hG : G.nodeList = List.range n)
    (hu : uv.1 < n) (hd : ∀ w ∈ d.2, w < n) :
    (rewire_step n p G uv d).nodeList = List.range n := by
  unfold rewire_step
  split
  · cases hd2 : d.2 with
    | nil => exact hG
    | cons w ws =>
      show (match pick_rewire_target G n uv.1 w ws with
        | some w2 => (G.removeEdge uv.1 uv.2).addEdge uv.1 w2
        | none => G).nodeList = List.range n
      cases hp : pick_rewire_target G n uv.1 w ws with
      | none => exact hG
      | some w2 =>
        obtain ⟨_, hor⟩ := pick_rewire_target_spec G n uv.1 w ws w2 hp
        have hw2 : w2 < n := by
          rcases hor with h1 | h1
          · exact h1 ▸ hd w (hd2 ▸ List.mem_cons_self w ws)
          · exact hd w2 (hd2 ▸ List.mem_cons_of_mem w h1)
        have hrem : (G.removeEdge uv.1 uv.2).nodeList = List.range n := by
          rw [removeEdge_nodeList]; exact hG
        rw [addEdge_nodeList_of_mem (hrem ▸ List.mem_range.2 hu)
          (hrem ▸ List.mem_range.2 hw2), hrem]
  · exact hG

lemma rewire_all_edgeInv {G : NxGraph} (n : Nat) (p : ℚ) (vs : List (Nat × Nat))
    (ds : List (ℚ × List Nat)) (hi : EdgeInv G) : EdgeInv (rewire_all n p G vs ds) := by
  unfold rewire_all
  exact foldl_preserves (P := EdgeInv)
    (fun b a hb => rewire_step_edgeInv n p a.1 a.2 hb) (vs.zip ds) G hi

lemma rewire_all_nodeList {G : NxGraph} {n : Nat} (p : ℚ) (vs : List (Nat × Nat))
    (ds : List (ℚ × List Nat)) (hG : G.nodeList = List.range n)
    (hvs : ∀ uv ∈ vs, uv.1 < n) (hds : ∀ d ∈ ds, ∀ w ∈ d.2, w < n) :
    (rewire_all n p G vs ds).nodeList = List.range n := by
  unfold rewire_all
  refine foldl_preserves_mem (P := fun H : NxGraph => H.nodeList = List.range n)
    (vs.zip ds) ?_ G hG
  intro b a ha hb
  have hmem := List.of_mem_zip ha
  exact rewire_step_nodeList p a.1 a.2 hb (hvs a.1 hmem.1) (hds a.2 hmem.2)

lemma add_edge_list_append (G : NxGraph) (l1 l2 : List (Nat × Nat)) :
    add_edge_list G (l1 ++ l2) = add_edge_list (add_edge_list G l1) l2 :=
  List.foldl_append _ _ _ _

lemma add_edge_list_edgeInv {G : NxGraph} (es : List (Nat × Nat))
    (hes : ∀ e ∈ es, e.1 ≠ e.2) (hi : EdgeInv G) : EdgeInv (add_edge_list G es) := by
  unfold add_edge_list
  refine foldl_preserves_mem (P := EdgeInv) es ?_ G hi
  intro b a ha hb
  exact edgeInv_addEdge (hes a ha) hb

lemma add_edge_list_nodeList_of_bounded {G : NxGraph} {n : Nat} (es : List (Nat × Nat))
    (hG : G.nodeList = List.range n) (hes : ∀ e ∈ es, e.1 < n ∧ e.2 < n) :
    (add_edge_list G es).nodeList = List.range n := by
  unfold add_edge_list
  refine foldl_preserves_mem (P := fun H : NxGraph => H.nodeList = List.range n) es ?_ G hG
  intro b a ha hb
  obtain ⟨h1, h2⟩ := hes a ha
  rw [addEdge_nodeList_of_mem (hb ▸ List.mem_range.2 h1) (hb ▸ List.mem_range.2 h2), hb]

lemma mod_ne_self {i s n : Nat} (hi : i < n) (hs1 : 0 < s) (hs2 : s < n) :
    (i + s) % n ≠ i := by
  rcases Nat.lt_or_ge (i + s) n with h | h
  · rw [Nat.mod_eq_of_lt h]
    omega
  · rw [Nat.mod_eq_sub_mod h, Nat.mod_eq_of_lt (by omega)]
    omega

lemma lattice_visits_fst_lt (n k : Nat) : ∀ e ∈ lattice_visits n k, e.1 < n := by
  intro e he
  simp only [lattice_visits, ring_edges, List.mem_flatMap, List.mem_map,
    List.mem_range] at he
  obtain ⟨j, _, i, hi, rfl⟩ := he
  exact hi

lemma lattice_visits_bounded (n k : Nat) (hn : 0 < n) :
    ∀ e ∈ lattice_visits n k, e.1 < n ∧ e.2 < n := by
  intro e he
  simp only [lattice_visits, ring_edges, List.mem_flatMap, List.mem_map,
    List.mem_range] at he
  obtain ⟨j, _, i, hi, rfl⟩ := he
  exact ⟨hi, Nat.mod_lt _ hn⟩

lemma lattice_visits_ne (n k : Nat) (hkn : k < n) :
    ∀ e ∈ lattice_visits n k, e.1 ≠ e.2 := by
  intro e he
  simp only [lattice_visits, ring_edges, List.mem_flatMap, List.mem_map,
    List.mem_range] at he
  obtain ⟨j, hj, i, hi, rfl⟩ := he
  dsimp only
  intro hc
  have hs2 : j + 1 < n := by
    have : k / 2 ≤ k := Nat.div_le_self k 2
    omega
  exact mod_ne_self hi (Nat.succ_pos j) hs2 hc.symm

lemma chain_nodeList : ∀ m : Nat, 1 ≤ m →
    (add_edge_list NxGraph.empty ((List.range m).map (fun i => (i, i + 1)))).nodeList
      = List.range (m + 1) := by
  intro m
  induction m with
  | zero => intro h; omega
  | succ m ih =>
    intro _
    by_cases hm : m = 0
    · subst hm
      decide
    · have h1 : 1 ≤ m := by omega
      rw [List.range_succ, List.map_append, add_edge_list_append]
      have hpre := ih h1
      show ((add_edge_list NxGraph.empty
        ((List.range m).map (fun i => (i, i + 1)))).addEdge m (m + 1)).nodeList
          = List.range (m + 2)
      rw [addEdge_nodeList]
      have e1 : ((add_edge_list NxGraph.empty
          ((List.range m).map (fun i => (i, i + 1)))).addNode m).nodeList
          = List.range (m + 1) := by
        rw [addNode_nodeList_of_mem (by rw [hpre]; exact List.mem_range.2 (by omega)), hpre]
      rw [addNode_nodeList_of_not_mem (by rw [e1]; simp), e1, ← List.range_succ]

lemma ring_one_nodeList (n : Nat) (hn : 2 ≤ n) :
    (add_edge_list NxGraph.empty (ring_edges n 1)).nodeList = List.range n := by
  obtain ⟨m, rfl⟩ : ∃ m, n = m + 2 := ⟨n - 2, by omega⟩
  have hsplit : ring_edges (m + 2) 1 =
      (List.range (m + 1)).map (fun i => (i, i + 1)) ++ [(m + 1, 0)] := by
    unfold ring_edges
    rw [List.range_succ, List.map_append]
    congr 1
    · apply List.map_congr_left
      intro i hi
      rw [List.mem_range] at hi
      rw [Nat.mod_eq_of_lt (by omega)]
    · simp [Nat.mod_self]
  rw [hsplit, add_edge_list_append]
  show ((add_edge_list NxGraph.empty
      ((List.range (m + 1)).map (fun i => (i, i + 1)))).addEdge (m + 1) 0).nodeList
    = List.range (m + 2)
  have hpre := chain_nodeList (m + 1) (by omega)
  rw [addEdge_nodeList_of_mem
    (by rw [hpre]; exact List.mem_range.2 (by omega))
    (by rw [hpre]; exact List.mem_range.2 (by omega)), hpre]

lemma lattice_nodeList (n k : Nat) (hk2 : 2 ≤ k) (hkn : k < n) :
    (add_edge_list NxGraph.empty (lattice_visits n k)).nodeList = List.range n := by
  have hn : 2 ≤ n := by omega
  obtain ⟨r, hr⟩ : ∃ r, k / 2 = r + 1 := ⟨k / 2 - 1, by omega⟩
  unfold lattice_visits
  rw [hr, List.range_succ_eq_map, List.flatMap_cons, add_edge_list_append]
  apply add_edge_list_nodeList_of_bounded
  · exact ring_one_nodeList n hn
  · intro e he
    simp only [ring_edges, List.mem_flatMap, List.mem_map, List.mem_range] at he
    obtain ⟨j, _, i, hi, rfl⟩ := he
    exact ⟨hi, Nat.mod_lt _ (by omega)⟩

lemma lattice_edgeInv (n k : Nat) (hkn : k < n) :
    EdgeInv (add_edge_list NxGraph.empty (lattice_visits n k)) :=
  add_edge_list_edgeInv _ (lattice_visits_ne n k hkn) edgeInv_empty

lemma watts_ok_of_le {n k : Nat} (p : ℚ) (ds : List (ℚ × List Nat)) (h : k ≤ n) :
    watts_strogatz_graph n k p ds ≠ .error .NetworkXError := by
  unfold watts_strogatz_graph
  rw [if_neg (by omega)]
  split <;> simp

lemma watts_error_of_gt {n k : Nat} (p : ℚ) (ds : List (ℚ × List Nat)) (h : n < k) :
    watts_strogatz_graph n k p ds = .error .NetworkXError := by
  unfold watts_strogatz_graph
  rw [if_pos h]

lemma watts_ok_struct {n k : Nat} {p : ℚ} {ds : List (ℚ × List Nat)} {G : NxGraph}
    (hk2 : 2 ≤ k) (hkn : k < n) (hds : ∀ d ∈ ds, ∀ w ∈ d.2, w < n)
    (hok : watts_strogatz_graph n k p ds = .ok G) :
    G.nodeList = List.range n ∧ EdgeInv G := by
  unfold watts_strogatz_graph at hok
  rw [if_neg (by omega), if_neg (by omega)] at hok
  injection hok with hG
  subst hG
  constructor
  · exact rewire_all_nodeList p _ ds (lattice_nodeList n k hk2 hkn)
      (lattice_visits_fst_lt n k) hds
  · exact rewire_all_edgeInv n p _ ds (lattice_edgeInv n k hkn)

lemma hasEdge_iff (G : NxGraph) (u v : Nat) :
    G.hasEdge u v = true ↔ (u, v) ∈ G.adj := by
  unfold NxGraph.hasEdge
  exact decide_eq_true_iff

/-- Claim C5 counterexample: with `N = 4` and odd `k_degree = 3`, the
generator succeeds (building a ring lattice with `3 // 2 = 1` neighbor on
each side) instead of failing with any error, refuting "fails ... if
k_degree is odd". -/
theorem C5_network_validation_counterexample :
    Except.isOk (watts_strogatz_graph 4 3 0 []) = true := by
  decide

/-- The graph built by the generator for `n = 5`, `k = 2`, no rewiring. -/
def demoGraph : NxGraph :=
  match watts_strogatz_graph 5 2 0 [] with
  | .ok G => G
  | .error _ => NxGraph.empty

/-- Claim C5 (amended): the model performs no parameter validation of its
own; the generator raises `NetworkXError` (not `InvalidParameter`) exactly
when `k_degree > N` — odd `k_degree` is accepted, and `k_degree = N` yields
a complete graph rather than an error.  For `2 ≤ k_degree < N` (and
rewiring choices drawn from the node set, as `seed.choice(nodes)`
guarantees) the result has exactly the `N` nodes `0..N-1`, no self-loops,
a symmetric adjacency relation, and no parallel edges; and `step()` never
mutates the graph after construction. -/
theorem C5_network_construction :
    (∀ (n k : Nat) (p : ℚ) (ds : List (ℚ × List Nat)), n < k →
        watts_strogatz_graph n k p ds = .error .NetworkXError) ∧
    (∀ (n k : Nat) (p : ℚ) (ds : List (ℚ × List Nat)), k ≤ n →
        watts_strogatz_graph n k p ds ≠ .error .NetworkXError) ∧
    (∀ (n k : Nat) (p : ℚ) (ds : List (ℚ × List Nat)) (G : NxGraph),
        2 ≤ k → k < n → (∀ d ∈ ds, ∀ w ∈ d.2, w < n) →
        watts_strogatz_graph n k p ds = .ok G →
        G.nodeList = List.range n ∧ (∀ u, G.hasEdge u u = false) ∧
        (∀ u v, G.hasEdge u v = true → G.hasEdge v u = true) ∧ G.adj.Nodup) ∧
    (∀ (m : SchoolModel) (srs : List StepRand), (m.run srs).G = m.G) := by
  refine ⟨?_, ?_, ?_, ?_⟩
  · intro n k p ds h
    exact watts_error_of_gt p ds h
  · intro n k p ds h
    exact watts_ok_of_le p ds h
  · intro n k p ds G hk2 hkn hds hok
    obtain ⟨hnodes, hirr, hsym, hnd⟩ := watts_ok_struct hk2 hkn hds hok
    refine ⟨hnodes, ?_, ?_, hnd⟩
    · intro u
      rw [Bool.eq_false_iff]
      intro hc
      exact hirr u ((hasEdge_iff G u u).1 hc)
    · intro u v hc
      exact (hasEdge_iff G v u).2 (hsym u v ((hasEdge_iff G u v).1 hc))
  · intro m srs
    exact SchoolModel.run_G m srs

theorem C5_network_construction_witness :
    watts_strogatz_graph 2 3 0 [] = .error .NetworkXError ∧
    watts_strogatz_graph 3 3 0 [] ≠ .error .NetworkXError ∧
    demoGraph.nodeList = List.range 5 ∧
    demoGraph.hasEdge 0 0 = false ∧
    demoGraph.adj.Nodup ∧
    (demoDroppedModel.run [demoStepA]).G = demoDroppedModel.G :=
  ⟨C5_network_construction.1 2 3 0 [] (by omega),
   C5_network_construction.2.1 3 3 0 [] (by omega),
   (C5_network_construction.2.2.1 5 2 0 [] demoGraph (by omega) (by omega)
      (by simp) (by rfl)).1,
   (C5_network_construction.2.2.1 5 2 0 [] demoGraph (by omega) (by omega)
      (by simp) (by rfl)).2.1 0,
   (C5_network_construction.2.2.1 5 2 0 [] demoGraph (by omega) (by omega)
      (by simp) (by rfl)).2.2.2,
   C5_network_construction.2.2.2 demoDroppedModel [demoStepA]⟩

/-! ### SES assignment and the tier-list length -/

lemma ses_distribution_length (N : Nat) :
    (ses_distribution N).length = 2 * N / 5 + (2 * N / 5 + N / 5) := by
  simp [ses_distribution]

lemma build_agents_error_of_short (dist : List SES) (zs : Nat → ℚ) :
    ∀ (nodes : List Nat) (i0 : Nat), nodes ≠ [] → dist.length < i0 + nodes.length →
      build_agents dist zs nodes i0 = .error .IndexError := by
  intro nodes
  induction nodes with
  | nil => intro i0 h _; exact absurd rfl h
  | cons node rest ih =>
    intro i0 _ hshort
    rw [build_agents]
    cases hd : dist[i0]? with
    | none => rfl
    | some s =>
      have hi0 : i0 < dist.length := by
        by_contra hc
        rw [List.getElem?_eq_none (by omega)] at hd
        exact absurd hd (by simp)
      have hrest : rest ≠ [] := by
        intro hc
        subst hc
        simp at hshort
        omega
      rw [ih (i0 + 1) hrest (by simp at hshort ⊢; omega)]
      rfl

lemma build_agents_ok_of_long (dist : List SES) (zs : Nat → ℚ) :
    ∀ (nodes : List Nat) (i0 : Nat), i0 + nodes.length ≤ dist.length →
      ∃ l, build_agents dist zs nodes i0 = .ok l := by
  intro nodes
  induction nodes with
  | nil => intro i0 _; exact ⟨[], rfl⟩
  | cons node rest ih =>
    intro i0 hle
    have hi0 : i0 < dist.length := by simp at hle; omega
    obtain ⟨tail, htail⟩ := ih (i0 + 1) (by simp at hle ⊢; omega)
    refine ⟨(⟨i0, node, initial_performance (zs i0), dist[i0], Status.Attending⟩
      : StudentAgent) :: tail, ?_⟩
    rw [build_agents, List.getElem?_eq_getElem hi0, htail]
    rfl

lemma construct_ok_build {p : Params} {rho : ConstructRand} {G : NxGraph}
    {agents : List StudentAgent}
    (hG : watts_strogatz_graph p.N p.k_degree p.rewiring_prob rho.ws_draws = .ok G)
    (hB : build_agents (rho.shuffle_ses (ses_distribution p.N)) rho.init_draws
      G.nodeList 0 = .ok agents) :
    SchoolModel.construct p rho =
      .ok { running := true, n_agents := p.N, steps := 0,
            base_dropout_rate := p.base_dropout_rate,
            peer_influence_weight := p.peer_influence_weight,
            performance_volatility := p.performance_volatility,
            financial_aid_policy := p.financial_aid_policy,
            G := G, agents := agents, records := [] } := by
  unfold SchoolModel.construct
  rw [hG]
  simp only [Bind.bind, Except.bind]
  rw [hB]

lemma construct_error_build {p : Params} {rho : ConstructRand} {G : NxGraph} {e : PyErr}
    (hG : watts_strogatz_graph p.N p.k_degree p.rewiring_prob rho.ws_draws = .ok G)
    (hB : build_agents (rho.shuffle_ses (ses_distribution p.N)) rho.init_draws
      G.nodeList 0 = .error e) :
    SchoolModel.construct p rho = .error e := by
  unfold SchoolModel.construct
  rw [hG]
  simp only [Bind.bind, Except.bind]
  rw [hB]

/-- `N = 7` with otherwise benign parameters. -/
def demoParams7 : Params :=
  { N := 7, k_degree := 2, rewiring_prob := 0, base_dropout_rate := 0,
    peer_influence_weight := 0, performance_volatility := 0, financial_aid_policy := false }

/-- Claim C4 counterexample: at `N = 7` (so `int(7*0.4) = 2` per tier list
block, total length `5 < 7`) construction fails with an `IndexError` from
`ses_distribution[i]`, not with an `InvalidParameter` error. -/
theorem C4_ses_split_counterexample :
    SchoolModel.construct demoParams7 demoRand = .error .IndexError ∧
    PyErr.IndexError ≠ PyErr.InvalidParameter := by
  constructor
  · with_unfolding_all rfl
  · decide

/-- Claim C4 (amended): for valid network parameters (`2 ≤ k_degree < N`),
construction fails whenever `N` is not a multiple of 5 — but with an
`IndexError` raised while indexing the (truncated) shuffled tier list, not
with an `InvalidParameter` error — and succeeds with all `N` agents
assigned when `5 ∣ N`; it never silently drops agents, because the
assignment loop errors out before completing when the tier list is short. -/
theorem C4_ses_split_failure (p : Params) (rho : ConstructRand)
    (hk2 : 2 ≤ p.k_degree) (hkn : p.k_degree < p.N)
    (hperm : ∀ l, (rho.shuffle_ses l).Perm l)
    (hds : ∀ d ∈ rho.ws_draws, ∀ w ∈ d.2, w < p.N) :
    (p.N % 5 = 0 → (SchoolModel.construct p rho).isOk = true ∧
      (∀ m, SchoolModel.construct p rho = .ok m → m.agents.length = p.N)) ∧
    (p.N % 5 ≠ 0 → SchoolModel.construct p rho = .error .IndexError) := by
  cases hG : watts_strogatz_graph p.N p.k_degree p.rewiring_prob rho.ws_draws with
  | error e =>
    exfalso
    unfold watts_strogatz_graph at hG
    rw [if_neg (by omega), if_neg (by omega)] at hG
    exact absurd hG (by simp)
  | ok G =>
    obtain ⟨hnodes, _⟩ := watts_ok_struct hk2 hkn hds hG
    have hnlen : G.nodeList.length = p.N := by
      rw [hnodes]; exact List.length_range _
    have hdlen : (rho.shuffle_ses (ses_distribution p.N)).length =
        2 * p.N / 5 + (2 * p.N / 5 + p.N / 5) := by
      rw [(hperm _).length_eq, ses_distribution_length]
    constructor
    · intro h5
      have hlen : 0 + G.nodeList.length ≤
          (rho.shuffle_ses (ses_distribution p.N)).length := by
        rw [hnlen, hdlen]; omega
      obtain ⟨l, hl⟩ := build_agents_ok_of_long _ _ G.nodeList 0 hlen
      have hcon := construct_ok_build hG hl
      constructor
      · rw [hcon]; rfl
      · intro m hm
        rw [hcon] at hm
        injection hm with hm2
        subst hm2
        obtain ⟨hllen, _⟩ := build_agents_ok_spec _ _ _ _ _ hl
        dsimp only
        rw [hllen, hnlen]
    · intro h5
      have hlt : (rho.shuffle_ses (ses_distribution p.N)).length <
          0 + G.nodeList.length := by
        rw [hnlen, hdlen]; omega
      have hnodesne : G.nodeList ≠ [] := by
        intro hc
        have := congrArg List.length hc
        rw [hnlen] at this
        simp at this
        omega
      exact construct_error_build hG
        (build_agents_error_of_short _ rho.init_draws G.nodeList 0 hnodesne hlt)

theorem C4_ses_split_failure_witness :
    (SchoolModel.construct demoParams demoRand).isOk = true ∧
    demoModel.agents.length = demoParams.N :=
  ⟨((C4_ses_split_failure demoParams demoRand (by decide) (by decide)
      (fun l => List.Perm.refl l) (by simp [demoRand])).1 (by decide)).1,
   ((C4_ses_split_failure demoParams demoRand (by decide) (by decide)
      (fun l => List.Perm.refl l) (by simp [demoRand])).1 (by decide)).2
     demoModel (by rfl)⟩

/-! ### The dropout-probability formula -/

/-- Every agent sits alone on the node named by its own id (true of every
constructed model: agent `i` is created on node `i`). -/
def well_placed (m : SchoolModel) : Bool :=
  m.agents.all (fun b => grid_agents_at m.agents b.unique_id == [b])

/-- The spec's peer influence score: `0` with no neighbors, otherwise the
fraction of neighbors currently `DroppedOut`. -/
def neighbor_dropped_fraction (nb : List StudentAgent) : ℚ :=
  if nb = [] then 0
  else ((nb.countP (fun b => decide (b.status = Status.DroppedOut)) : ℚ) / (nb.length : ℚ))

/-- The spec's dropout-probability formula, with `perf` the
post-fluctuation performance. -/
def p_drop_spec (base w perf peer : ℚ) : ℚ :=
  base + max 0 (60 - perf) / 60 * (1 - w) + peer * w

lemma well_placed_spec {m : SchoolModel} (h : well_placed m = true) :
    ∀ b ∈ m.agents, grid_agents_at m.agents b.unique_id = [b] := by
  rw [well_placed, List.all_eq_true] at h
  intro b hb
  exact eq_of_beq (h b hb)

lemma mem_grid_get_neighbors {G : NxGraph} {agents : List StudentAgent} {pos : Nat}
    {b : StudentAgent} (h : b ∈ grid_get_neighbors G agents pos) : b ∈ agents := by
  unfold grid_get_neighbors grid_agents_at at h
  rw [List.mem_flatMap] at h
  obtain ⟨nid, _, hb⟩ := h
  exact List.mem_of_mem_filter hb

lemma node_attr_status_eq {agents : List StudentAgent} {b : StudentAgent}
    (h : grid_agents_at agents b.unique_id = [b]) :
    node_attr_status agents b.unique_id = some b.status := by
  unfold node_attr_status
  rw [h]
  rfl

lemma peer_score_eq_fraction (m : SchoolModel) (a : StudentAgent)
    (hwp : well_placed m = true) :
    StudentAgent.peer_influence_score m a =
      neighbor_dropped_fraction (grid_get_neighbors m.G m.agents a.pos) := by
  unfold StudentAgent.peer_influence_score neighbor_dropped_fraction
  dsimp only
  have hcnt : List.countP
      (fun nid => decide (node_attr_status m.agents nid = some Status.DroppedOut))
      ((grid_get_neighbors m.G m.agents a.pos).map (fun b => b.unique_id))
      = List.countP (fun b => decide (b.status = Status.DroppedOut))
          (grid_get_neighbors m.G m.agents a.pos) := by
    rw [List.countP_map]
    apply List.countP_congr
    intro b hb
    have hmem : b ∈ m.agents := mem_grid_get_neighbors hb
    have hat := node_attr_status_eq (well_placed_spec hwp b hmem)
    simp [Function.comp, hat]
  by_cases hnb : grid_get_neighbors m.G m.agents a.pos = []
  · simp [hnb]
  · rw [if_neg (by simpa using hnb), if_neg hnb, hcnt, List.length_map]

lemma step_attending_char (m : SchoolModel) (a : StudentAgent) (z u : ℚ)
    (ha : a.status = Status.Attending) :
    (StudentAgent.step m a z u).performance =
        np_clip (a.performance + normal_sample 0 m.performance_volatility z) 0 100 ∧
      ((StudentAgent.step m a z u).status = Status.DroppedOut ↔
        u < financial_aid_adjust m.financial_aid_policy a.ses
          (StudentAgent.p_drop m a
            (np_clip (a.performance + normal_sample 0 m.performance_volatility z) 0 100))) := by
  unfold StudentAgent.step
  rw [if_neg (by simp [ha])]
  refine ⟨rfl, ?_⟩
  show (if u < financial_aid_adjust m.financial_aid_policy a.ses
      (StudentAgent.p_drop m a
        (np_clip (a.performance + normal_sample 0 m.performance_volatility z) 0 100))
    then Status.DroppedOut else a.status) = Status.DroppedOut ↔ _
  split
  · next h => exact iff_of_true rfl h
  · next h =>
    rw [ha]
    exact iff_of_false (by simp) h

/-- A model with a large base dropout rate, to exhibit `p_drop > 1`. -/
def demoHighRisk : SchoolModel := { emptyModel with base_dropout_rate := 2 }

/-- Claim C1: for every Attending agent, the probability compared against
the uniform draw is exactly
`base + max(0, 60 - perf)/60 * (1 - w) + peer * w` (post-fluctuation
performance, peer score `0` without neighbors and the dropped-out fraction
otherwise), fed through the financial-aid adjustment; and this value is
not clamped to `[0, 1]` — it exceeds `1` for some inputs. -/
theorem C1_dropout_probability_formula :
    (∀ (m : SchoolModel) (a : StudentAgent) (perf : ℚ), well_placed m = true →
        StudentAgent.p_drop m a perf =
          p_drop_spec m.base_dropout_rate m.peer_influence_weight perf
            (neighbor_dropped_fraction (grid_get_neighbors m.G m.agents a.pos))) ∧
    (∀ (m : SchoolModel) (a : StudentAgent) (z u : ℚ), a.status = Status.Attending →
        (StudentAgent.step m a z u).performance =
            np_clip (a.performance + normal_sample 0 m.performance_volatility z) 0 100 ∧
          ((StudentAgent.step m a z u).status = Status.DroppedOut ↔
            u < financial_aid_adjust m.financial_aid_policy a.ses
              (StudentAgent.p_drop m a
                (np_clip (a.performance + normal_sample 0 m.performance_volatility z) 0 100)))) ∧
    1 < StudentAgent.p_drop demoHighRisk demoDropped 0 := by
  refine ⟨?_, ?_, ?_⟩
  · intro m a perf hwp
    unfold StudentAgent.p_drop p_drop_spec performance_risk PERFORMANCE_THRESHOLD
    rw [peer_score_eq_fraction m a hwp]
  · intro m a z u ha
    exact step_attending_char m a z u ha
  · rw [show StudentAgent.p_drop demoHighRisk demoDropped 0 = 3 from by
      with_unfolding_all rfl]
    norm_num

/-- An attending agent on node 0, used by the C1 witness. -/
def demoAttending : StudentAgent :=
  { unique_id := 0, pos := 0, performance := 75, ses := SES.Low, status := Status.Attending }

theorem C1_dropout_probability_formula_witness :
    StudentAgent.p_drop demoModel demoAttending 55 =
      p_drop_spec demoModel.base_dropout_rate demoModel.peer_influence_weight 55
        (neighbor_dropped_fraction
          (grid_get_neighbors demoModel.G demoModel.agents demoAttending.pos)) ∧
    ((StudentAgent.step demoModel demoAttending 0 (3/4)).status = Status.DroppedOut ↔
      3/4 < financial_aid_adjust demoModel.financial_aid_policy demoAttending.ses
        (StudentAgent.p_drop demoModel demoAttending
          (np_clip (demoAttending.performance
            + normal_sample 0 demoModel.performance_volatility 0) 0 100))) :=
  ⟨C1_dropout_probability_formula.1 demoModel demoAttending 55 (by with_unfolding_all rfl),
   (C1_dropout_probability_formula.2.1 demoModel demoAttending 0 (3/4) rfl).2⟩

/-! ### Well-placement holds in every reachable model -/

lemma filter_pos_toList : ∀ (l : List StudentAgent) (off j : Nat),
    (∀ (i : Nat) (a : StudentAgent), l[i]? = some a → a.pos = off + i) →
    l.filter (fun c => decide (c.pos = j)) =
      if off ≤ j then (l[j - off]?).toList else [] := by
  intro l
  induction l with
  | nil =>
    intro off j _
    simp
  | cons x xs ih =>
    intro off j h
    have hx : x.pos = off := by simpa using h 0 x (by simp)
    have hxs : ∀ (i : Nat) (a : StudentAgent), xs[i]? = some a → a.pos = (off + 1) + i := by
      intro i a ha
      have := h (i + 1) a (by simpa using ha)
      omega
    rw [List.filter_cons]
    by_cases hj : off = j
    · subst hj
      rw [if_pos (by simp [hx])]
      rw [ih (off + 1) off hxs, if_neg (by omega)]
      simp
    · rw [if_neg (by simp [hx, hj])]
      rw [ih (off + 1) j hxs]
      by_cases hle : off ≤ j
      · have h1 : off + 1 ≤ j := by omega
        rw [if_pos h1, if_pos hle]
        have h2 : j - off = (j - (off + 1)) + 1 := by omega
        rw [h2]
        simp
      · rw [if_neg (by omega), if_neg hle]

lemma well_placed_of_indexed {l : List StudentAgent}
    (h : ∀ (i : Nat) (a : StudentAgent), l[i]? = some a → a.unique_id = i ∧ a.pos = i)
    (m : SchoolModel) (hm : m.agents = l) : well_placed m = true := by
  rw [well_placed, List.all_eq_true]
  intro b hb
  rw [beq_iff_eq]
  obtain ⟨j, hj⟩ := List.getElem?_of_mem (hm ▸ hb)
  obtain ⟨hid, _⟩ := h j b hj
  unfold grid_agents_at
  rw [hm, hid, filter_pos_toList l 0 j (fun i a ha => by simpa using (h i a ha).2),
    if_pos (by omega)]
  have hj0 : l[j - 0]? = some b := by simpa using hj
  rw [hj0]
  rfl

lemma well_placed_construct (p : Params) (rho : ConstructRand) (m : SchoolModel)
    (hk2 : 2 ≤ p.k_degree) (hkn : p.k_degree < p.N)
    (hds : ∀ d ∈ rho.ws_draws, ∀ w ∈ d.2, w < p.N)
    (h : SchoolModel.construct p rho = .ok m) : well_placed m = true := by
  obtain ⟨G, agents, hG, hb, hm⟩ := construct_ok_spec p rho m h
  obtain ⟨hnodes, _⟩ := watts_ok_struct hk2 hkn hds hG
  obtain ⟨_, hall⟩ := build_agents_ok_spec _ _ _ _ _ hb
  refine well_placed_of_indexed (l := agents) ?_ m (by rw [hm])
  intro i a ha
  obtain ⟨hid, hpos, _⟩ := hall i a ha
  refine ⟨by rw [hid]; omega, ?_⟩
  rw [hnodes] at hpos
  have : i < p.N := by
    by_contra hc
    rw [List.getElem?_eq_none (by simpa using hc)] at hpos
    exact absurd hpos (by simp)
  rw [List.getElem?_range this] at hpos
  injection hpos with h2
  omega

lemma step_pos (m : SchoolModel) (a : StudentAgent) (z u : ℚ) :
    (StudentAgent.step m a z u).pos = a.pos := by
  unfold StudentAgent.step
  split <;> rfl

lemma step_unique_id (m : SchoolModel) (a : StudentAgent) (z u : ℚ) :
    (StudentAgent.step m a z u).unique_id = a.unique_id := by
  unfold StudentAgent.step
  split <;> rfl

lemma filter_pos_map (l : List StudentAgent) (f : StudentAgent → StudentAgent)
    (hf : ∀ a, (f a).pos = a.pos) (j : Nat) :
    (l.map f).filter (fun c => decide (c.pos = j)) =
      (l.filter (fun c => decide (c.pos = j))).map f := by
  rw [List.filter_map]
  congr 1
  apply List.filter_congr
  intro a _
  simp [Function.comp, hf]

lemma well_placed_stepAgentAt (m : SchoolModel) (i : Nat) (z u : ℚ)
    (h : well_placed m = true) : well_placed (m.stepAgentAt i z u) = true := by
  have hspec := well_placed_spec h
  rw [well_placed, List.all_eq_true]
  intro b2 hb2
  rw [beq_iff_eq]
  show grid_agents_at (m.stepAgentAt i z u).agents b2.unique_id = [b2]
  have hagents : (m.stepAgentAt i z u).agents =
      m.agents.map (fun a => if a.unique_id = i then StudentAgent.step m a z u else a) := rfl
  rw [hagents] at hb2 ⊢
  obtain ⟨b, hb, rfl⟩ := List.mem_map.1 hb2
  have hfpos : ∀ a : StudentAgent,
      ((if a.unique_id = i then StudentAgent.step m a z u else a)).pos = a.pos := by
    intro a
    split
    · exact step_pos m a z u
    · rfl
  have hfid : ((if b.unique_id = i then StudentAgent.step m b z u else b)).unique_id
      = b.unique_id := by
    split
    · exact step_unique_id m b z u
    · rfl
  unfold grid_agents_at
  rw [hfid, filter_pos_map _ _ hfpos]
  have hs := hspec b hb
  unfold grid_agents_at at hs
  rw [hs]
  simp

lemma well_placed_run (m : SchoolModel) (srs : List StepRand)
    (h : well_placed m = true) : well_placed (m.run srs) = true := by
  induction srs generalizing m with
  | nil => exact h
  | cons sr rest ih =>
    apply ih
    show well_placed (SchoolModel.agentPass _ sr) = true
    exact foldl_preserves (P := fun mm : SchoolModel => well_placed mm = true)
      (fun b a hb => well_placed_stepAgentAt b a _ _ hb) sr.order _ h
